import Mathlib

/-!
A verification development for `src/donut.js`: a rotating, shaded 3D torus
renderer built from quaternion rotation, perspective projection and a
per-pixel depth test.

JavaScript numbers are idealized as elements of a linear ordered field:
`ℝ` for the trigonometric geometry (`Quaternion.forRotation`, the draw
pass), and a generic field `K` for the `Plotter`, so that statements cover
the real-valued pipeline while concrete instances can be computed in `ℚ`.
-/

namespace DonutJs

/-- 3D vector, `class Vector` (donut.js lines 7–41). -/
@[ext]
structure Vector (K : Type) where
  x : K
  y : K
  z : K

variable {K : Type} [LinearOrderedField K]

/-- `Vector.scale` (donut.js line 14). -/
def Vector.scale (v : Vector K) (s : K) : Vector K :=
  ⟨v.x * s, v.y * s, v.z * s⟩

/-- `Vector.dot` (donut.js line 18). -/
def Vector.dot (v w : Vector K) : K :=
  v.x * w.x + v.y * w.y + v.z * w.z

/-- `Vector.cross` (donut.js line 22), right-handed. -/
def Vector.cross (v w : Vector K) : Vector K :=
  ⟨v.y * w.z - v.z * w.y, v.z * w.x - v.x * w.z, v.x * w.y - v.y * w.x⟩

/-- `Vector.add` (donut.js line 34). -/
def Vector.add (v w : Vector K) : Vector K :=
  ⟨v.x + w.x, v.y + w.y, v.z + w.z⟩

/-- `Vector.normalize` (donut.js line 30): `scale (1 / sqrt (dot self self))`. -/
noncomputable def Vector.normalize (v : Vector ℝ) : Vector ℝ :=
  v.scale (1 / Real.sqrt (v.dot v))

/-- Euclidean magnitude of a vector, `sqrt (v ⬝ v)` (the `|v|` of the spec). -/
noncomputable def Vector.norm (v : Vector ℝ) : ℝ :=
  Real.sqrt (v.dot v)

/-- `X_AXIS` (donut.js line 43). -/
def X_AXIS : Vector ℝ := ⟨1, 0, 0⟩

/-- `Y_AXIS` (donut.js line 44). -/
def Y_AXIS : Vector ℝ := ⟨0, 1, 0⟩

/-- `Z_AXIS` (donut.js line 45). -/
def Z_AXIS : Vector ℝ := ⟨0, 0, 1⟩

/-- Quaternion as scalar part plus vector part, `class Quaternion`
(donut.js lines 47–74). -/
@[ext]
structure Quaternion (K : Type) where
  scalar : K
  vector : Vector K

/-- `Quaternion.forRotation` (donut.js lines 48–51):
`(cos (angle/2), normalize axis · sin (angle/2))`. -/
noncomputable def Quaternion.forRotation (angle : ℝ) (axis : Vector ℝ) : Quaternion ℝ :=
  ⟨Real.cos (angle / 2), axis.normalize.scale (Real.sin (angle / 2))⟩

/-- Hamilton product `Quaternion.mult` (donut.js lines 57–64). -/
def Quaternion.mult (p q : Quaternion K) : Quaternion K :=
  ⟨p.scalar * q.scalar - p.vector.dot q.vector,
   ((q.vector.scale p.scalar).add (p.vector.scale q.scalar)).add
     (p.vector.cross q.vector)⟩

/-- `Quaternion.conjugate` (donut.js lines 66–68). -/
def Quaternion.conjugate (p : Quaternion K) : Quaternion K :=
  ⟨p.scalar, p.vector.scale (-1)⟩

/-- `Quaternion.rotate` (donut.js lines 70–73): sandwich product
`this · (0, v) · conjugate this`, returning the vector part. -/
def Quaternion.rotate (p : Quaternion K) (v : Vector K) : Vector K :=
  ((p.mult ⟨0, v⟩).mult p.conjugate).vector

/-- Squared quaternion magnitude `scalar² + |vector|²` (helper for stating
that rotation quaternions are unit quaternions). -/
def Quaternion.normSq (p : Quaternion K) : K :=
  p.scalar ^ 2 + p.vector.dot p.vector

/-- Entry of the `points` winner array: `{x: xp, y: yp, c: color}`
(donut.js line 108). -/
structure PlotPoint where
  x : ℤ
  y : ℤ
  c : ℤ
deriving DecidableEq

/-- State of `class Plotter` (donut.js lines 76–126).  `size` holds the
constructor's `size + 1` (line 78).  The palette is an array of CSS color
strings used only at render time; `plot` reads only its length, so the
model keeps `paletteLength` in its place.  JavaScript arrays freshly
allocated with `new Array(n)` hold `undefined` everywhere, and indexing
with an arbitrary numeric key is object-property access, so `zbuf` and
`points` are modelled as total maps from the numeric index to an optional
entry (`none` = `undefined`). -/
structure Plotter (K : Type) where
  size : ℕ
  bmin : K
  bmax : K
  scale : K
  distance : K
  paletteLength : ℕ
  zbuf : K → Option K
  points : K → Option PlotPoint

/-- The `Plotter` constructor (donut.js lines 77–84): stores `size + 1`,
bounds `{min: -size/2, max: size/2}`, and calls `reset()`, leaving both
arrays with every entry `undefined`. -/
def Plotter.make (size : ℕ) (scale distance : K) (paletteLength : ℕ) : Plotter K :=
  { size := size + 1
    bmin := -((size : K) / 2)
    bmax := (size : K) / 2
    scale := scale
    distance := distance
    paletteLength := paletteLength
    zbuf := fun _ => none
    points := fun _ => none }

/-- `Plotter.reset` (donut.js lines 86–89): reallocates both arrays. -/
def Plotter.reset (p : Plotter K) : Plotter K :=
  { p with zbuf := fun _ => none, points := fun _ => none }

/-- The projected x pixel coordinate `Math.round(distance * point.x / point.z)`
(donut.js line 95). -/
def Plotter.xproj (p : Plotter K) [FloorRing K] (point : Vector K) : ℤ :=
  round (p.distance * point.x / point.z)

/-- The projected y pixel coordinate `Math.round(distance * point.y / point.z)`
(donut.js line 99). -/
def Plotter.yproj (p : Plotter K) [FloorRing K] (point : Vector K) : ℤ :=
  round (p.distance * point.y / point.z)

/-- The flat buffer index `(yp - bounds.min) * size + (xp - bounds.min)`
(donut.js line 103), a JavaScript number (it is an integer only when
`bounds.min` is). -/
def Plotter.idx (p : Plotter K) [FloorRing K] (point : Vector K) : K :=
  ((p.yproj point : K) - p.bmin) * (p.size : K) + ((p.xproj point : K) - p.bmin)

/-- JavaScript `a <= b` where `a` may be `undefined` (donut.js line 104):
comparison against `undefined` is `false`. -/
def jsLe (a : Option K) (b : K) : Bool :=
  match a with
  | none => false
  | some v => decide (v ≤ b)

/-- `Plotter.plot` (donut.js lines 91–109): reject a color index outside
`[0, palette.length)`; project to pixel coordinates and reject either
coordinate outside `[bounds.min, bounds.max]`; depth-test against the
stored z at the flat index (`undefined` loses); on success store the new
minimal z and the winning `(x, y, color)`. -/
def Plotter.plot (p : Plotter K) [FloorRing K] [DecidableEq K]
    (point : Vector K) (color : ℤ) : Plotter K :=
  if color < 0 ∨ (p.paletteLength : ℤ) ≤ color then p
  else if (p.xproj point : K) < p.bmin ∨ p.bmax < (p.xproj point : K) then p
  else if (p.yproj point : K) < p.bmin ∨ p.bmax < (p.yproj point : K) then p
  else if jsLe (p.zbuf (p.idx point)) point.z then p
  else
    { p with
      zbuf := Function.update p.zbuf (p.idx point) (some point.z)
      points := Function.update p.points (p.idx point)
        (some ⟨p.xproj point, p.yproj point, color⟩) }

/-- Tube radius `this.R1 = 1` (donut.js line 159). -/
def R1 : ℝ := 1

/-- Ring radius `this.R2 = 2` (donut.js line 160). -/
def R2 : ℝ := 2

/-- `this.CENTER = new Vector(0, 0, 5)` (donut.js line 161). -/
def CENTER : Vector ℝ := ⟨0, 0, 5⟩

/-- `this.LIGHT = new Vector(0, -1, 1).normalize()` (donut.js line 162). -/
noncomputable def LIGHT : Vector ℝ := (Vector.mk (0 : ℝ) (-1) 1).normalize

/-- `this.FPS = 60` (donut.js line 166). -/
def FPS : ℝ := 60

/-- `this.PHI_INC = Math.PI / 160` (donut.js line 164). -/
noncomputable def PHI_INC : ℝ := Real.pi / 160

/-- `this.T_INC = Math.PI / 80` (donut.js line 165). -/
noncomputable def T_INC : ℝ := Real.pi / 80

/-- The mutable animation state of `class Donut` (donut.js lines 156–158):
the last seen timestamp (`null` before the first tick) and the two
orientation angles, initialized `a = b = 1`.  The other constructor fields
are fixed constants (modelled as the definitions above) or the plotter and
canvas, which `update` touches only through `draw`. -/
structure Donut where
  lastTs : Option ℝ
  a : ℝ
  b : ℝ

/-- JavaScript `x || y` for a nullable number `x` (donut.js line 170):
`null` and `0` are falsy, so both select `y`. -/
noncomputable def jsOrElse (x : Option ℝ) (y : ℝ) : ℝ :=
  match x with
  | none => y
  | some v => if v = 0 then y else v

/-- `Donut.update` (donut.js lines 169–176) restricted to the animation
state: `elapsed = ts - (lastTs || ts)`, `lastTs = ts`,
`dt = elapsed * FPS / 1000`, `a += 0.07 * dt`, `b += 0.03 * dt`.  The
subsequent `draw()` call mutates only the plotter and the canvas, not this
state. -/
noncomputable def Donut.update (d : Donut) (ts : ℝ) : Donut :=
  let elapsed := ts - jsOrElse d.lastTs ts
  let dt := elapsed * FPS / 1000
  { lastTs := some ts, a := d.a + 0.07 * dt, b := d.b + 0.03 * dt }

/-- The orientation quaternion `wobble` of a draw pass (donut.js
lines 181–182). -/
noncomputable def wobble (a b : ℝ) : Quaternion ℝ :=
  (Quaternion.forRotation b Z_AXIS).mult (Quaternion.forRotation a X_AXIS)

/-- The per-ring-angle quaternion `body` (donut.js line 185). -/
noncomputable def body (a b phi : ℝ) : Quaternion ℝ :=
  (wobble a b).mult (Quaternion.forRotation phi Y_AXIS)

/-- The per-tube-angle quaternion `rim` (donut.js line 187). -/
noncomputable def rim (t : ℝ) : Quaternion ℝ :=
  Quaternion.forRotation t Z_AXIS

/-- The emitted surface point `donut` (donut.js lines 189–191):
`body.rotate(rim.rotate(X·R1) + X·R2) + CENTER`. -/
noncomputable def donutPoint (a b phi t : ℝ) : Vector ℝ :=
  ((body a b phi).rotate
    (((rim t).rotate (X_AXIS.scale R1)).add (X_AXIS.scale R2))).add CENTER

/-- The emitted surface normal (donut.js line 193):
`body.rotate(rim.rotate(X_AXIS))`. -/
noncomputable def surfaceNormal (a b phi t : ℝ) : Vector ℝ :=
  (body a b phi).rotate ((rim t).rotate X_AXIS)

/-- The shading index (donut.js lines 194–195):
`Math.max(0, Math.round(-LIGHT.dot(normal) * MAX_COLOR))`, where
`MAX_COLOR = colors - 1` (line 163). -/
noncomputable def shadeColor (maxColor : ℤ) (normal : Vector ℝ) : ℤ :=
  max 0 (round (-(LIGHT.dot normal) * (maxColor : ℝ)))

/-- Distance of a point (taken relative to the torus center) from the line
through the origin spanned by a unit vector `axis`. -/
noncomputable def distToAxis (q axis : Vector ℝ) : ℝ :=
  Real.sqrt (q.dot q - (q.dot axis) ^ 2)

/-! ## General lemmas about the vector and quaternion algebra -/

/-- The sandwich product distributes over the Hamilton product: rotating by
`q.mult r` is rotating by `r`, then by `q`.  A polynomial identity of the
source operations (no unit hypothesis needed). -/
theorem Quaternion.rotate_mult (q r : Quaternion K) (v : Vector K) :
    (q.mult r).rotate v = q.rotate (r.rotate v) := by
  ext <;>
    simp only [Quaternion.rotate, Quaternion.mult, Quaternion.conjugate,
      Vector.dot, Vector.cross, Vector.scale, Vector.add] <;> ring

/-- Dot products transform under the sandwich product by the fourth power
of the quaternion magnitude (so unit quaternions preserve them).  A
polynomial identity of the source operations. -/
theorem Quaternion.dot_rotate (q : Quaternion K) (u w : Vector K) :
    (q.rotate u).dot (q.rotate w) = q.normSq ^ 2 * (u.dot w) := by
  simp only [Quaternion.rotate, Quaternion.mult, Quaternion.conjugate,
    Quaternion.normSq, Vector.dot, Vector.cross, Vector.scale, Vector.add]
  ring

/-- The squared quaternion magnitude is multiplicative (Euler's
four-square identity, over the source's `mult`). -/
theorem Quaternion.normSq_mult (p q : Quaternion K) :
    (p.mult q).normSq = p.normSq * q.normSq := by
  simp only [Quaternion.mult, Quaternion.normSq, Vector.dot, Vector.cross,
    Vector.scale, Vector.add]
  ring

/-- A nonzero vector has positive squared magnitude. -/
theorem Vector.dot_self_pos (v : Vector ℝ) (h : v ≠ ⟨0, 0, 0⟩) :
    0 < v.dot v := by
  rcases lt_or_eq_of_le (by positivity : (0:ℝ) ≤ v.x ^ 2 + v.y ^ 2 + v.z ^ 2) with hlt | heq
  · simpa [Vector.dot, sq] using hlt
  · exfalso
    apply h
    have hx : v.x = 0 := by nlinarith [sq_nonneg v.x, sq_nonneg v.y, sq_nonneg v.z]
    have hy : v.y = 0 := by nlinarith [sq_nonneg v.x, sq_nonneg v.y, sq_nonneg v.z]
    have hz : v.z = 0 := by nlinarith [sq_nonneg v.x, sq_nonneg v.y, sq_nonneg v.z]
    ext <;> assumption

/-- `normalize` of a nonzero vector is a unit vector. -/
theorem Vector.normalize_dot_self (v : Vector ℝ) (h : v ≠ ⟨0, 0, 0⟩) :
    v.normalize.dot v.normalize = 1 := by
  have hpos := v.dot_self_pos h
  have hs : Real.sqrt (v.dot v) ^ 2 = v.dot v := Real.sq_sqrt hpos.le
  have hne : Real.sqrt (v.dot v) ≠ 0 := by positivity
  simp only [Vector.normalize, Vector.scale, Vector.dot] at *
  field_simp

/-- `normalize` fixes a vector that is already unit. -/
theorem Vector.normalize_of_unit (v : Vector ℝ) (h : v.dot v = 1) :
    v.normalize = v := by
  simp only [Vector.normalize, Vector.dot] at *
  rw [h]
  simp [Vector.scale]

/-- Rotation quaternions built from a normalizable axis are unit
quaternions. -/
theorem Quaternion.normSq_forRotation (θ : ℝ) (axis : Vector ℝ)
    (h : axis.normalize.dot axis.normalize = 1) :
    (Quaternion.forRotation θ axis).normSq = 1 := by
  simp only [Quaternion.forRotation, Quaternion.normSq, Vector.dot, Vector.scale] at *
  nlinarith [Real.sin_sq_add_cos_sq (θ / 2)]

theorem X_AXIS_unit : X_AXIS.dot X_AXIS = 1 := by simp [X_AXIS, Vector.dot]

theorem Y_AXIS_unit : Y_AXIS.dot Y_AXIS = 1 := by simp [Y_AXIS, Vector.dot]

theorem Z_AXIS_unit : Z_AXIS.dot Z_AXIS = 1 := by simp [Z_AXIS, Vector.dot]

theorem normSq_forRotation_X (θ : ℝ) : (Quaternion.forRotation θ X_AXIS).normSq = 1 :=
  Quaternion.normSq_forRotation θ _
    (by rw [Vector.normalize_of_unit _ X_AXIS_unit]; exact X_AXIS_unit)

theorem normSq_forRotation_Y (θ : ℝ) : (Quaternion.forRotation θ Y_AXIS).normSq = 1 :=
  Quaternion.normSq_forRotation θ _
    (by rw [Vector.normalize_of_unit _ Y_AXIS_unit]; exact Y_AXIS_unit)

theorem normSq_forRotation_Z (θ : ℝ) : (Quaternion.forRotation θ Z_AXIS).normSq = 1 :=
  Quaternion.normSq_forRotation θ _
    (by rw [Vector.normalize_of_unit _ Z_AXIS_unit]; exact Z_AXIS_unit)

/-- A rotation about the Y axis fixes the Y axis. -/
theorem forRotation_Y_fixes_Y (phi : ℝ) :
    (Quaternion.forRotation phi Y_AXIS).rotate Y_AXIS = Y_AXIS := by
  rw [Quaternion.forRotation, Vector.normalize_of_unit _ Y_AXIS_unit]
  ext <;>
    simp only [Quaternion.rotate, Quaternion.mult, Quaternion.conjugate,
      Vector.dot, Vector.cross, Vector.scale, Vector.add, Y_AXIS] <;>
    nlinarith [Real.sin_sq_add_cos_sq (phi / 2)]

/-- The squared distance of the local tube-surface offset from the
(pre-orientation) ring axis `Y_AXIS`, in half-angle terms. -/
theorem offset_distSq (t : ℝ) :
    (((Quaternion.forRotation t Z_AXIS).rotate (X_AXIS.scale R1)).add (X_AXIS.scale R2)).dot
      (((Quaternion.forRotation t Z_AXIS).rotate (X_AXIS.scale R1)).add (X_AXIS.scale R2))
    - ((((Quaternion.forRotation t Z_AXIS).rotate (X_AXIS.scale R1)).add
        (X_AXIS.scale R2)).dot Y_AXIS) ^ 2
      = (Real.cos (t/2) ^ 2 - Real.sin (t/2) ^ 2 + 2) ^ 2 := by
  rw [Quaternion.forRotation, Vector.normalize_of_unit _ Z_AXIS_unit]
  simp only [Quaternion.rotate, Quaternion.mult, Quaternion.conjugate,
    Vector.dot, Vector.cross, Vector.scale, Vector.add, X_AXIS, Y_AXIS, Z_AXIS, R1, R2]
  ring

/-- Cauchy–Schwarz for the source's 3D dot product. -/
theorem Vector.dot_sq_le (u v : Vector ℝ) :
    (u.dot v) ^ 2 ≤ u.dot u * (v.dot v) := by
  simp only [Vector.dot]
  nlinarith [sq_nonneg (u.y * v.z - u.z * v.y), sq_nonneg (u.z * v.x - u.x * v.z),
    sq_nonneg (u.x * v.y - u.y * v.x)]

/-- The light direction `(0, -1, 1).normalize()` is a unit vector. -/
theorem LIGHT_unit : LIGHT.dot LIGHT = 1 := by
  rw [LIGHT]
  apply Vector.normalize_dot_self
  intro hc
  have hz := congrArg Vector.z hc
  norm_num at hz

/-- `round` is monotone. -/
theorem round_le_round {x y : ℝ} (h : x ≤ y) : round x ≤ round y := by
  rw [round_eq, round_eq]
  exact Int.floor_mono (by linarith)

/-- Quaternion composition with the same axis, at the quaternion level:
`forRotation θ1 axis · forRotation θ2 axis = forRotation (θ1 + θ2) axis`
for a nonzero axis. -/
theorem forRotation_mult_same_axis (θ1 θ2 : ℝ) (axis : Vector ℝ)
    (h : axis ≠ ⟨0, 0, 0⟩) :
    (Quaternion.forRotation θ1 axis).mult (Quaternion.forRotation θ2 axis)
      = Quaternion.forRotation (θ1 + θ2) axis := by
  have hu : axis.normalize.dot axis.normalize = 1 := axis.normalize_dot_self h
  have hs : (θ1 + θ2) / 2 = θ1 / 2 + θ2 / 2 := by ring
  simp only [Vector.dot] at hu
  apply Quaternion.ext
  · simp only [Quaternion.forRotation, Quaternion.mult, Vector.dot, Vector.scale]
    rw [hs, Real.cos_add]
    linear_combination (-(Real.sin (θ1 / 2) * Real.sin (θ2 / 2))) * hu
  · apply Vector.ext <;>
      simp only [Quaternion.forRotation, Quaternion.mult, Vector.dot, Vector.cross,
        Vector.scale, Vector.add] <;>
      rw [hs, Real.sin_add] <;> ring

/-! ## Claim theorems -/

/-- Claim C3: for every ring angle `phi` and tube angle `t` sampled during
a draw pass (at any orientation angles `a`, `b`), the emitted 3D surface
point before perspective projection — i.e. `donutPoint` with `CENTER`
subtracted off, measured against the rotated ring axis
`(wobble a b).rotate Y_AXIS` — lies at distance between `R2 - R1` and
`R2 + R1` from the ring axis. -/
theorem C3_torus_radius_bound (a b phi t : ℝ) :
    R2 - R1 ≤ distToAxis ((donutPoint a b phi t).add (CENTER.scale (-1)))
        ((wobble a b).rotate Y_AXIS) ∧
    distToAxis ((donutPoint a b phi t).add (CENTER.scale (-1)))
        ((wobble a b).rotate Y_AXIS) ≤ R2 + R1 := by
  have hq : (donutPoint a b phi t).add (CENTER.scale (-1))
      = (wobble a b).rotate ((Quaternion.forRotation phi Y_AXIS).rotate
          (((rim t).rotate (X_AXIS.scale R1)).add (X_AXIS.scale R2))) := by
    rw [donutPoint, body, Quaternion.rotate_mult]
    ext <;> simp [Vector.add, Vector.scale, CENTER]
  have hW : (wobble a b).normSq = 1 := by
    rw [wobble, Quaternion.normSq_mult, normSq_forRotation_Z, normSq_forRotation_X, one_mul]
  have hY : (Quaternion.forRotation phi Y_AXIS).normSq = 1 := normSq_forRotation_Y phi
  have inner : ∀ w : Vector ℝ, ((Quaternion.forRotation phi Y_AXIS).rotate w).dot Y_AXIS
      = w.dot Y_AXIS := by
    intro w
    have h0 := Quaternion.dot_rotate (Quaternion.forRotation phi Y_AXIS) w Y_AXIS
    rw [forRotation_Y_fixes_Y, hY] at h0
    rw [h0]
    ring
  have hdA : ((donutPoint a b phi t).add (CENTER.scale (-1))).dot ((wobble a b).rotate Y_AXIS)
      = (((rim t).rotate (X_AXIS.scale R1)).add (X_AXIS.scale R2)).dot Y_AXIS := by
    rw [hq, Quaternion.dot_rotate, hW, inner]
    ring
  have hdp : ((donutPoint a b phi t).add (CENTER.scale (-1))).dot
        ((donutPoint a b phi t).add (CENTER.scale (-1)))
      = (((rim t).rotate (X_AXIS.scale R1)).add (X_AXIS.scale R2)).dot
        (((rim t).rotate (X_AXIS.scale R1)).add (X_AXIS.scale R2)) := by
    rw [hq, Quaternion.dot_rotate, hW, Quaternion.dot_rotate, hY]
    ring
  have hval : ((donutPoint a b phi t).add (CENTER.scale (-1))).dot
        ((donutPoint a b phi t).add (CENTER.scale (-1)))
      - (((donutPoint a b phi t).add (CENTER.scale (-1))).dot
          ((wobble a b).rotate Y_AXIS)) ^ 2
      = (Real.cos (t/2) ^ 2 - Real.sin (t/2) ^ 2 + 2) ^ 2 := by
    rw [hdp, hdA, rim]
    exact offset_distSq t
  have hP := Real.sin_sq_add_cos_sq (t / 2)
  have h1 : (1:ℝ) ≤ Real.cos (t/2) ^ 2 - Real.sin (t/2) ^ 2 + 2 := by
    nlinarith [sq_nonneg (Real.sin (t/2))]
  have h3 : Real.cos (t/2) ^ 2 - Real.sin (t/2) ^ 2 + 2 ≤ 3 := by
    nlinarith [sq_nonneg (Real.sin (t/2))]
  rw [distToAxis, hval, Real.sqrt_sq (by linarith)]
  constructor
  · rw [R1, R2]; linarith
  · rw [R1, R2]; linarith

/-- Claim C4: for every unit normal `n` and the fixed unit light direction
`LIGHT`, the shading level `max(0, round(-LIGHT·n · (paletteSize-1)))` lies
in `[0, paletteSize-1]`; in particular the projector's defensive
palette-range rejection (`color < 0 ∨ paletteSize ≤ color`) is unreachable
for levels computed this way. -/
theorem C4_shade_level_in_range (n : Vector ℝ) (hn : n.dot n = 1)
    (ps : ℤ) (hps : 1 ≤ ps) :
    (0 ≤ shadeColor (ps - 1) n ∧ shadeColor (ps - 1) n ≤ ps - 1) ∧
    ¬(shadeColor (ps - 1) n < 0 ∨ ps ≤ shadeColor (ps - 1) n) := by
  have hcs := Vector.dot_sq_le LIGHT n
  rw [LIGHT_unit, hn, one_mul] at hcs
  have hd : -(LIGHT.dot n) ≤ 1 := by nlinarith
  have h0 : (0 : ℤ) ≤ shadeColor (ps - 1) n := le_max_left _ _
  have hub : shadeColor (ps - 1) n ≤ ps - 1 := by
    rw [shadeColor]
    apply max_le (by omega)
    have hcast : (0 : ℝ) ≤ ((ps - 1 : ℤ) : ℝ) := by
      have : (0 : ℤ) ≤ ps - 1 := by omega
      exact_mod_cast this
    have hle : -(LIGHT.dot n) * ((ps - 1 : ℤ) : ℝ) ≤ ((ps - 1 : ℤ) : ℝ) := by nlinarith
    calc round (-(LIGHT.dot n) * ((ps - 1 : ℤ) : ℝ))
        ≤ round (((ps - 1 : ℤ) : ℝ)) := round_le_round hle
      _ = ps - 1 := round_intCast _
  exact ⟨⟨h0, hub⟩, by omega⟩

/-- Witness for C4 at the concrete unit normal `(1, 0, 0)` and palette
size 10. -/
theorem C4_witness :
    ((Vector.mk (1:ℝ) 0 0).dot ⟨1, 0, 0⟩ = 1 ∧ (1 : ℤ) ≤ 10) ∧
    ((0 ≤ shadeColor (10 - 1) ⟨1, 0, 0⟩ ∧ shadeColor (10 - 1) ⟨1, 0, 0⟩ ≤ 10 - 1) ∧
      ¬(shadeColor (10 - 1) ⟨1, 0, 0⟩ < 0 ∨ (10 : ℤ) ≤ shadeColor (10 - 1) ⟨1, 0, 0⟩)) :=
  ⟨⟨by simp [Vector.dot], by norm_num⟩,
    C4_shade_level_in_range ⟨1, 0, 0⟩ (by simp [Vector.dot]) 10 (by norm_num)⟩

/-- Claim C8: for every vector `v`, every angle `θ` and every nonzero
axis, the rotation quaternion `forRotation θ axis` preserves vector
magnitude under the sandwich product: `|q.rotate v| = |v|`. -/
theorem C8_rotate_preserves_norm (θ : ℝ) (axis : Vector ℝ)
    (h : axis ≠ ⟨0, 0, 0⟩) (v : Vector ℝ) :
    ((Quaternion.forRotation θ axis).rotate v).norm = v.norm := by
  rw [Vector.norm, Vector.norm, Quaternion.dot_rotate,
    Quaternion.normSq_forRotation θ axis (axis.normalize_dot_self h), one_pow, one_mul]

/-- Witness for C8 at `θ = 1`, `axis = (1, 0, 0)`, `v = (2, 3, 4)`. -/
theorem C8_witness :
    (Vector.mk (1:ℝ) 0 0 ≠ ⟨0, 0, 0⟩) ∧
    ((Quaternion.forRotation 1 ⟨1, 0, 0⟩).rotate ⟨2, 3, 4⟩).norm
      = (Vector.mk (2:ℝ) 3 4).norm := by
  have hne : Vector.mk (1:ℝ) 0 0 ≠ ⟨0, 0, 0⟩ := by
    intro hc
    have hx := congrArg Vector.x hc
    norm_num at hx
  exact ⟨hne, C8_rotate_preserves_norm 1 ⟨1, 0, 0⟩ hne ⟨2, 3, 4⟩⟩

/-- Claim C9: for every nonzero axis, all angles `θ1`, `θ2` and every
vector `v`, composing `forRotation θ1 axis` and `forRotation θ2 axis` by
quaternion multiplication rotates `v` to the same result as the single
rotation `forRotation (θ1 + θ2) axis`. -/
theorem C9_same_axis_compose (θ1 θ2 : ℝ) (axis : Vector ℝ)
    (h : axis ≠ ⟨0, 0, 0⟩) (v : Vector ℝ) :
    ((Quaternion.forRotation θ1 axis).mult (Quaternion.forRotation θ2 axis)).rotate v
      = (Quaternion.forRotation (θ1 + θ2) axis).rotate v := by
  rw [forRotation_mult_same_axis θ1 θ2 axis h]

/-- Witness for C9 at `θ1 = 1`, `θ2 = 2`, `axis = (0, 0, 1)`,
`v = (1, 2, 3)`. -/
theorem C9_witness :
    (Vector.mk (0:ℝ) 0 1 ≠ ⟨0, 0, 0⟩) ∧
    ((Quaternion.forRotation 1 ⟨0, 0, 1⟩).mult
        (Quaternion.forRotation 2 ⟨0, 0, 1⟩)).rotate ⟨1, 2, 3⟩
      = (Quaternion.forRotation (1 + 2) ⟨0, 0, 1⟩).rotate ⟨1, 2, 3⟩ := by
  have hne : Vector.mk (0:ℝ) 0 1 ≠ ⟨0, 0, 0⟩ := by
    intro hc
    have hz := congrArg Vector.z hc
    norm_num at hz
  exact ⟨hne, C9_same_axis_compose 1 2 ⟨0, 0, 1⟩ hne ⟨1, 2, 3⟩⟩

/-- Counterexample to claim C1 as stated: with the stored last timestamp
equal to `0` and a tick at `16.67`, the code computes `elapsed = 0`
(because `this.lastTs || ts` treats the stored `0` as falsy), so `a` stays
exactly at its prior value `1` — while the claim demands it advance by
`0.07 · dt` with `dt ≈ 1`, which would move it away from `1`. -/
theorem C1_counterexample :
    (Donut.update ⟨some 0, 1, 1⟩ (1667 / 100)).a = 1 ∧
    (1 : ℝ) + 0.07 * ((1667 / 100 - 0) * FPS / 1000) ≠ 1 := by
  constructor
  · simp [Donut.update, jsOrElse, FPS]
  · rw [FPS]
    norm_num

/-- Claim C1 (amended): `update` reads the stored timestamp through the
JavaScript truthiness test `this.lastTs || ts`, so a stored last timestamp
equal to `0` is treated like the initial `null`: a tick at `16.67` then
computes `dt = 0` and leaves both angles unchanged.  For any nonzero
stored last timestamp `t0`, a tick at `t0 + 16.67` under `targetFPS = 60`
gives `dt = 16.67·60/1000 = 1.0002 ≈ 1.0`, and `a` advances by
`0.07·dt ≈ 0.07` and `b` by `0.03·dt ≈ 0.03` from their prior values. -/
theorem C1_amended (t0 a0 b0 : ℝ) (h : t0 ≠ 0) :
    (Donut.update ⟨some 0, a0, b0⟩ (1667 / 100)).a = a0 ∧
    (Donut.update ⟨some 0, a0, b0⟩ (1667 / 100)).b = b0 ∧
    (Donut.update ⟨some t0, a0, b0⟩ (t0 + 1667 / 100)).a
      = a0 + 0.07 * (1667 / 100 * FPS / 1000) ∧
    (Donut.update ⟨some t0, a0, b0⟩ (t0 + 1667 / 100)).b
      = b0 + 0.03 * (1667 / 100 * FPS / 1000) ∧
    |1667 / 100 * FPS / 1000 - 1| ≤ 1 / 1000 ∧
    |(Donut.update ⟨some t0, a0, b0⟩ (t0 + 1667 / 100)).a - a0 - 0.07| ≤ 1 / 1000 ∧
    |(Donut.update ⟨some t0, a0, b0⟩ (t0 + 1667 / 100)).b - b0 - 0.03| ≤ 1 / 1000 := by
  have hsel : jsOrElse (some t0) (t0 + 1667 / 100) = t0 := by simp [jsOrElse, h]
  have hsel0 : jsOrElse (some 0) ((1667 : ℝ) / 100) = 1667 / 100 := by simp [jsOrElse]
  refine ⟨?_, ?_, ?_, ?_, ?_, ?_, ?_⟩ <;>
    simp only [Donut.update, hsel, hsel0, FPS]
  · ring
  · ring
  · ring
  · ring
  · rw [abs_le]
    constructor <;> norm_num
  · rw [abs_le]
    constructor <;> norm_num
  · rw [abs_le]
    constructor <;> norm_num

/-- Witness for the amended C1 at `t0 = a0 = b0 = 1`. -/
theorem C1_witness :
    ((1 : ℝ) ≠ 0) ∧
    ((Donut.update ⟨some 0, 1, 1⟩ (1667 / 100)).a = 1 ∧
      (Donut.update ⟨some 0, 1, 1⟩ (1667 / 100)).b = 1 ∧
      (Donut.update ⟨some 1, 1, 1⟩ (1 + 1667 / 100)).a
        = 1 + 0.07 * (1667 / 100 * FPS / 1000) ∧
      (Donut.update ⟨some 1, 1, 1⟩ (1 + 1667 / 100)).b
        = 1 + 0.03 * (1667 / 100 * FPS / 1000) ∧
      |1667 / 100 * FPS / 1000 - 1| ≤ 1 / 1000 ∧
      |(Donut.update ⟨some 1, 1, 1⟩ (1 + 1667 / 100)).a - 1 - 0.07| ≤ 1 / 1000 ∧
      |(Donut.update ⟨some 1, 1, 1⟩ (1 + 1667 / 100)).b - 1 - 0.03| ≤ 1 / 1000) :=
  ⟨by norm_num, C1_amended 1 1 1 (by norm_num)⟩

/-- Characterization of `plot` on an accepted sample: all three rejection
tests fail and the depth test passes, so both arrays are updated at the
flat index. -/
theorem Plotter.plot_accept [FloorRing K] [DecidableEq K] (p : Plotter K)
    (point : Vector K) (color : ℤ)
    (hc : ¬(color < 0 ∨ (p.paletteLength : ℤ) ≤ color))
    (hx : ¬((p.xproj point : K) < p.bmin ∨ p.bmax < (p.xproj point : K)))
    (hy : ¬((p.yproj point : K) < p.bmin ∨ p.bmax < (p.yproj point : K)))
    (hd : jsLe (p.zbuf (p.idx point)) point.z = false) :
    p.plot point color = { p with
      zbuf := Function.update p.zbuf (p.idx point) (some point.z)
      points := Function.update p.points (p.idx point)
        (some ⟨p.xproj point, p.yproj point, color⟩) } := by
  rw [Plotter.plot, if_neg hc, if_neg hx, if_neg hy, if_neg (by simp [hd])]

/-- Characterization of `plot` on a sample that loses the depth test: the
plotter is unchanged. -/
theorem Plotter.plot_depth_reject [FloorRing K] [DecidableEq K] (p : Plotter K)
    (point : Vector K) (color : ℤ)
    (hd : jsLe (p.zbuf (p.idx point)) point.z = true) :
    p.plot point color = p := by
  rw [Plotter.plot]
  by_cases h1 : color < 0 ∨ (p.paletteLength : ℤ) ≤ color
  · rw [if_pos h1]
  · rw [if_neg h1]
    by_cases h2 : (p.xproj point : K) < p.bmin ∨ p.bmax < (p.xproj point : K)
    · rw [if_pos h2]
    · rw [if_neg h2]
      by_cases h3 : (p.yproj point : K) < p.bmin ∨ p.bmax < (p.yproj point : K)
      · rw [if_pos h3]
      · rw [if_neg h3, if_pos hd]

/-- Claim C6: a plot call whose shading index is outside
`[0, paletteSize-1]` is dropped before the projection and before any
depth-buffer or winner-array write: the whole plotter state is returned
unchanged, for every point. -/
theorem C6_color_reject [FloorRing K] [DecidableEq K] (p : Plotter K)
    (point : Vector K) (color : ℤ)
    (h : color < 0 ∨ (p.paletteLength : ℤ) ≤ color) :
    p.plot point color = p := by
  rw [Plotter.plot, if_pos h]

/-- Witness for C6: color `-1` against a palette of length 3 is a no-op. -/
theorem C6_witness :
    ((-1 : ℤ) < 0 ∨ (((Plotter.make 4 1 1 3 : Plotter ℚ).paletteLength : ℤ) ≤ -1)) ∧
    (Plotter.make 4 1 1 3 : Plotter ℚ).plot ⟨1, 1, 1⟩ (-1) = Plotter.make 4 1 1 3 :=
  ⟨Or.inl (by norm_num), C6_color_reject _ _ _ (Or.inl (by norm_num))⟩

/-- Claim C5: a plot call whose projected pixel coordinate `x` or `y`
falls outside the inclusive range `[-size/2, size/2]` (the configured
bounds) is a no-op: the plotter, and in particular its depth buffer and
winner array, is unchanged. -/
theorem C5_bounds_reject [FloorRing K] [DecidableEq K] (size : ℕ) (p : Plotter K)
    (point : Vector K) (color : ℤ)
    (hmin : p.bmin = -((size : K) / 2)) (hmax : p.bmax = (size : K) / 2)
    (h : (p.xproj point : K) < -((size : K) / 2) ∨ (size : K) / 2 < (p.xproj point : K)
       ∨ (p.yproj point : K) < -((size : K) / 2) ∨ (size : K) / 2 < (p.yproj point : K)) :
    p.plot point color = p := by
  rw [Plotter.plot]
  by_cases h1 : color < 0 ∨ (p.paletteLength : ℤ) ≤ color
  · rw [if_pos h1]
  · rw [if_neg h1]
    by_cases h2 : (p.xproj point : K) < p.bmin ∨ p.bmax < (p.xproj point : K)
    · rw [if_pos h2]
    · rw [if_neg h2]
      rw [hmin, hmax] at h2
      have h3 : (p.yproj point : K) < p.bmin ∨ p.bmax < (p.yproj point : K) := by
        rw [hmin, hmax]
        tauto
      rw [if_pos h3]

/-- Witness for C5: with `size = 4` (bounds `[-2, 2]`), the point
`(10, 0, 1)` projects to pixel x-coordinate 10, one call is a no-op. -/
theorem C5_witness :
    ((Plotter.make 4 1 1 3 : Plotter ℚ).bmin = -((4 : ℚ) / 2) ∧
      (Plotter.make 4 1 1 3 : Plotter ℚ).bmax = (4 : ℚ) / 2 ∧
      (((Plotter.make 4 1 1 3 : Plotter ℚ).xproj ⟨10, 0, 1⟩ : ℚ) < -((4 : ℚ) / 2) ∨
        (4 : ℚ) / 2 < ((Plotter.make 4 1 1 3 : Plotter ℚ).xproj ⟨10, 0, 1⟩ : ℚ) ∨
        ((Plotter.make 4 1 1 3 : Plotter ℚ).yproj ⟨10, 0, 1⟩ : ℚ) < -((4 : ℚ) / 2) ∨
        (4 : ℚ) / 2 < ((Plotter.make 4 1 1 3 : Plotter ℚ).yproj ⟨10, 0, 1⟩ : ℚ))) ∧
    (Plotter.make 4 1 1 3 : Plotter ℚ).plot ⟨10, 0, 1⟩ 0 = Plotter.make 4 1 1 3 := by
  have hmin : (Plotter.make 4 1 1 3 : Plotter ℚ).bmin = -((4 : ℚ) / 2) := by
    norm_num [Plotter.make]
  have hmax : (Plotter.make 4 1 1 3 : Plotter ℚ).bmax = (4 : ℚ) / 2 := by
    norm_num [Plotter.make]
  have hout : (4 : ℚ) / 2 < ((Plotter.make 4 1 1 3 : Plotter ℚ).xproj ⟨10, 0, 1⟩ : ℚ) := by
    norm_num [Plotter.xproj, Plotter.make, round_eq]
  exact ⟨⟨hmin, hmax, Or.inr (Or.inl hout)⟩,
    C5_bounds_reject 4 _ _ 0 hmin hmax (Or.inr (Or.inl hout))⟩

/-- Claim C7: submitting the identical `(point, color)` plot call twice
leaves the depth buffer and winner array exactly as after submitting it
once; in particular for an accepted call the second submission is a no-op
because the stored depth is `≤` the candidate's z. -/
theorem C7_plot_idempotent [FloorRing K] [DecidableEq K] (p : Plotter K)
    (point : Vector K) (color : ℤ) :
    (p.plot point color).plot point color = p.plot point color := by
  by_cases h1 : color < 0 ∨ (p.paletteLength : ℤ) ≤ color
  · have e : p.plot point color = p := by rw [Plotter.plot, if_pos h1]
    rw [e, e]
  by_cases h2 : (p.xproj point : K) < p.bmin ∨ p.bmax < (p.xproj point : K)
  · have e : p.plot point color = p := by rw [Plotter.plot, if_neg h1, if_pos h2]
    rw [e, e]
  by_cases h3 : (p.yproj point : K) < p.bmin ∨ p.bmax < (p.yproj point : K)
  · have e : p.plot point color = p := by rw [Plotter.plot, if_neg h1, if_neg h2, if_pos h3]
    rw [e, e]
  by_cases h4 : jsLe (p.zbuf (p.idx point)) point.z = true
  · have e : p.plot point color = p := Plotter.plot_depth_reject p point color h4
    rw [e, e]
  · have e := Plotter.plot_accept p point color h1 h2 h3 (by
      cases hb : jsLe (p.zbuf (p.idx point)) point.z
      · rfl
      · exact absurd hb h4)
    rw [e]
    apply Plotter.plot_depth_reject
    show jsLe (Function.update p.zbuf (p.idx point) (some point.z) (p.idx point)) point.z = true
    rw [Function.update_same]
    simp [jsLe]

/-- Claim C2: starting from a cleared buffer, two plot calls that both
pass the color and bounds checks and map to the same flat pixel index,
with depths `z1 < z2`, leave the stored depth at that index equal to `z1`
in either submission order: the closer point wins regardless of order. -/
theorem C2_closer_point_wins [FloorRing K] [DecidableEq K] (p : Plotter K)
    (pt1 pt2 : Vector K) (c1 c2 : ℤ)
    (hclear : p.zbuf = fun _ => none)
    (hc1 : ¬(c1 < 0 ∨ (p.paletteLength : ℤ) ≤ c1))
    (hc2 : ¬(c2 < 0 ∨ (p.paletteLength : ℤ) ≤ c2))
    (hx1 : ¬((p.xproj pt1 : K) < p.bmin ∨ p.bmax < (p.xproj pt1 : K)))
    (hy1 : ¬((p.yproj pt1 : K) < p.bmin ∨ p.bmax < (p.yproj pt1 : K)))
    (hx2 : ¬((p.xproj pt2 : K) < p.bmin ∨ p.bmax < (p.xproj pt2 : K)))
    (hy2 : ¬((p.yproj pt2 : K) < p.bmin ∨ p.bmax < (p.yproj pt2 : K)))
    (hidx : p.idx pt1 = p.idx pt2)
    (hz : pt1.z < pt2.z) :
    ((p.plot pt1 c1).plot pt2 c2).zbuf (p.idx pt1) = some pt1.z ∧
    ((p.plot pt2 c2).plot pt1 c1).zbuf (p.idx pt1) = some pt1.z := by
  have hd1 : jsLe (p.zbuf (p.idx pt1)) pt1.z = false := by rw [hclear]; rfl
  have hd2 : jsLe (p.zbuf (p.idx pt2)) pt2.z = false := by rw [hclear]; rfl
  have e1 := Plotter.plot_accept p pt1 c1 hc1 hx1 hy1 hd1
  have e2 := Plotter.plot_accept p pt2 c2 hc2 hx2 hy2 hd2
  constructor
  · rw [e1]
    have estep : ({ p with
        zbuf := Function.update p.zbuf (p.idx pt1) (some pt1.z)
        points := Function.update p.points (p.idx pt1)
          (some ⟨p.xproj pt1, p.yproj pt1, c1⟩) } : Plotter K).plot pt2 c2
        = { p with
            zbuf := Function.update p.zbuf (p.idx pt1) (some pt1.z)
            points := Function.update p.points (p.idx pt1)
              (some ⟨p.xproj pt1, p.yproj pt1, c1⟩) } := by
      apply Plotter.plot_depth_reject
      show jsLe (Function.update p.zbuf (p.idx pt1) (some pt1.z) (p.idx pt2)) pt2.z = true
      rw [← hidx, Function.update_same]
      simp [jsLe, hz.le]
    rw [estep]
    show Function.update p.zbuf (p.idx pt1) (some pt1.z) (p.idx pt1) = some pt1.z
    rw [Function.update_same]
  · rw [e2]
    have hdep : jsLe ((Function.update p.zbuf (p.idx pt2) (some pt2.z)) (p.idx pt1)) pt1.z
        = false := by
      rw [hidx, Function.update_same]
      simp [jsLe, not_le.mpr hz]
    have estep := Plotter.plot_accept
      ({ p with
        zbuf := Function.update p.zbuf (p.idx pt2) (some pt2.z)
        points := Function.update p.points (p.idx pt2)
          (some ⟨p.xproj pt2, p.yproj pt2, c2⟩) } : Plotter K) pt1 c1 hc1 hx1 hy1 hdep
    rw [estep]
    show Function.update (Function.update p.zbuf (p.idx pt2) (some pt2.z))
        (p.idx pt1) (some pt1.z) (p.idx pt1) = some pt1.z
    rw [Function.update_same]

/-- Witness for C2 in `ℚ`: plotter `make 4 1 1 3`, points `(1,1,1)` with
`z = 1` and `(2,2,2)` with `z = 2` both project to pixel `(1,1)`
(flat index 18); the stored depth is 1 in both orders. -/
theorem C2_witness :
    ((Plotter.make 4 1 1 3 : Plotter ℚ).idx ⟨1, 1, 1⟩
        = (Plotter.make 4 1 1 3 : Plotter ℚ).idx ⟨2, 2, 2⟩ ∧
      (Vector.mk (1:ℚ) 1 1).z < (Vector.mk (2:ℚ) 2 2).z) ∧
    (((Plotter.make 4 1 1 3 : Plotter ℚ).plot ⟨1, 1, 1⟩ 0).plot ⟨2, 2, 2⟩ 1).zbuf
        ((Plotter.make 4 1 1 3 : Plotter ℚ).idx ⟨1, 1, 1⟩) = some 1 ∧
    (((Plotter.make 4 1 1 3 : Plotter ℚ).plot ⟨2, 2, 2⟩ 1).plot ⟨1, 1, 1⟩ 0).zbuf
        ((Plotter.make 4 1 1 3 : Plotter ℚ).idx ⟨1, 1, 1⟩) = some 1 := by
  have hidx : (Plotter.make 4 1 1 3 : Plotter ℚ).idx ⟨1, 1, 1⟩
      = (Plotter.make 4 1 1 3 : Plotter ℚ).idx ⟨2, 2, 2⟩ := by
    norm_num [Plotter.idx, Plotter.xproj, Plotter.yproj, Plotter.make, round_eq]
  refine ⟨⟨hidx, by norm_num⟩, ?_⟩
  exact C2_closer_point_wins (Plotter.make 4 1 1 3) ⟨1, 1, 1⟩ ⟨2, 2, 2⟩ 0 1 rfl
    (by norm_num [Plotter.make])
    (by norm_num [Plotter.make])
    (by norm_num [Plotter.xproj, Plotter.make, round_eq])
    (by norm_num [Plotter.yproj, Plotter.make, round_eq])
    (by norm_num [Plotter.xproj, Plotter.make, round_eq])
    (by norm_num [Plotter.yproj, Plotter.make, round_eq])
    hidx (by norm_num)

/-- Row-major flat indices determine their coordinates: if
`A·w + B = C·w + D` with `B, D ∈ [0, w)`, then `A = C` and `B = D`. -/
theorem rowMajor_inj (w A B C D : ℤ) (hw : 0 < w)
    (hB0 : 0 ≤ B) (hBw : B < w) (hD0 : 0 ≤ D) (hDw : D < w)
    (h : A * w + B = C * w + D) : A = C ∧ B = D := by
  have h1 : (B + w * A) % w = (D + w * C) % w := by
    rw [show B + w * A = A * w + B by ring, show D + w * C = C * w + D by ring, h]
  rw [Int.add_mul_emod_self_left, Int.add_mul_emod_self_left,
    Int.emod_eq_of_lt hB0 hBw, Int.emod_eq_of_lt hD0 hDw] at h1
  refine ⟨?_, h1⟩
  have h2 : A * w = C * w := by linarith
  exact mul_right_cancel₀ hw.ne' h2

/-- Claim C10: for an even grid size `2·half` (so `size/2` is an integer)
and any plot call passing the bounds checks — its rounded pixel
coordinates lie in `[-half, half]` — the flat buffer index
`(y - min)·(size+1) + (x - min)` with `min = -size/2` equals an integer in
`[0, (size+1)²)`, and two accepted calls with distinct pixel coordinates
get distinct indices, so every depth-buffer and winner-array access lands
in a distinct cell of the allocated `(size+1)²` grid. -/
theorem C10_flat_index_safe [FloorRing K] (half : ℕ) (p : Plotter K)
    (scale distance : K) (plen : ℕ) (pt1 pt2 : Vector K)
    (hp : p = Plotter.make (2 * half) scale distance plen)
    (hx1 : -(half : ℤ) ≤ p.xproj pt1 ∧ p.xproj pt1 ≤ half)
    (hy1 : -(half : ℤ) ≤ p.yproj pt1 ∧ p.yproj pt1 ≤ half)
    (hx2 : -(half : ℤ) ≤ p.xproj pt2 ∧ p.xproj pt2 ≤ half)
    (hy2 : -(half : ℤ) ≤ p.yproj pt2 ∧ p.yproj pt2 ≤ half) :
    (∃ n : ℤ, p.idx pt1 = (n : K) ∧ 0 ≤ n ∧ n < (2 * (half : ℤ) + 1) ^ 2) ∧
    ((p.xproj pt1 ≠ p.xproj pt2 ∨ p.yproj pt1 ≠ p.yproj pt2) →
      p.idx pt1 ≠ p.idx pt2) := by
  have hidx : ∀ pt : Vector K,
      p.idx pt = (((p.yproj pt + half) * (2 * (half : ℤ) + 1) + (p.xproj pt + half) : ℤ) : K) := by
    intro pt
    rw [hp]
    simp only [Plotter.idx, Plotter.make]
    push_cast
    ring
  have hw : (0 : ℤ) < 2 * (half : ℤ) + 1 := by positivity
  constructor
  · refine ⟨(p.yproj pt1 + half) * (2 * (half : ℤ) + 1) + (p.xproj pt1 + half),
      hidx pt1, ?_, ?_⟩
    · have hA : (0 : ℤ) ≤ p.yproj pt1 + half := by omega
      have hB : (0 : ℤ) ≤ p.xproj pt1 + half := by omega
      exact add_nonneg (mul_nonneg hA hw.le) hB
    · have hA : p.yproj pt1 + half ≤ 2 * (half : ℤ) := by omega
      have hB : p.xproj pt1 + half ≤ 2 * (half : ℤ) := by omega
      have hmul := mul_le_mul_of_nonneg_right hA hw.le
      nlinarith
  · intro hne heq
    rw [hidx pt1, hidx pt2] at heq
    have heqZ : (p.yproj pt1 + half) * (2 * (half : ℤ) + 1) + (p.xproj pt1 + half)
        = (p.yproj pt2 + half) * (2 * (half : ℤ) + 1) + (p.xproj pt2 + half) := by
      exact_mod_cast heq
    obtain ⟨hA, hB⟩ := rowMajor_inj (2 * (half : ℤ) + 1) _ _ _ _ hw
      (by omega) (by omega) (by omega) (by omega) heqZ
    rcases hne with hne | hne
    · exact hne (by omega)
    · exact hne (by omega)

/-- Witness for C10 in `ℚ` with `half = 2` (grid size 4): the accepted
pixels `(1, 1)` and `(-1, 0)` get integer indices in `[0, 25)`, and the
indices differ. -/
theorem C10_witness :
    ((-(2 : ℤ) ≤ (Plotter.make (2 * 2) 1 1 3 : Plotter ℚ).xproj ⟨1, 1, 1⟩ ∧
        (Plotter.make (2 * 2) 1 1 3 : Plotter ℚ).xproj ⟨1, 1, 1⟩ ≤ 2) ∧
      (-(2 : ℤ) ≤ (Plotter.make (2 * 2) 1 1 3 : Plotter ℚ).xproj ⟨-1, 0, 1⟩ ∧
        (Plotter.make (2 * 2) 1 1 3 : Plotter ℚ).xproj ⟨-1, 0, 1⟩ ≤ 2)) ∧
    ((∃ n : ℤ, (Plotter.make (2 * 2) 1 1 3 : Plotter ℚ).idx ⟨1, 1, 1⟩ = (n : ℚ) ∧
        0 ≤ n ∧ n < (2 * (2 : ℤ) + 1) ^ 2) ∧
      (((Plotter.make (2 * 2) 1 1 3 : Plotter ℚ).xproj ⟨1, 1, 1⟩
          ≠ (Plotter.make (2 * 2) 1 1 3 : Plotter ℚ).xproj ⟨-1, 0, 1⟩ ∨
        (Plotter.make (2 * 2) 1 1 3 : Plotter ℚ).yproj ⟨1, 1, 1⟩
          ≠ (Plotter.make (2 * 2) 1 1 3 : Plotter ℚ).yproj ⟨-1, 0, 1⟩) →
        (Plotter.make (2 * 2) 1 1 3 : Plotter ℚ).idx ⟨1, 1, 1⟩
          ≠ (Plotter.make (2 * 2) 1 1 3 : Plotter ℚ).idx ⟨-1, 0, 1⟩)) := by
  refine ⟨⟨?_, ?_⟩, ?_⟩
  · constructor <;> norm_num [Plotter.xproj, Plotter.make, round_eq]
  · constructor <;> norm_num [Plotter.xproj, Plotter.make, round_eq]
  · exact C10_flat_index_safe 2 (Plotter.make (2 * 2) 1 1 3) 1 1 3 ⟨1, 1, 1⟩ ⟨-1, 0, 1⟩ rfl
      (by constructor <;> norm_num [Plotter.xproj, Plotter.make, round_eq])
      (by constructor <;> norm_num [Plotter.yproj, Plotter.make, round_eq])
      (by constructor <;> norm_num [Plotter.xproj, Plotter.make, round_eq])
      (by constructor <;> norm_num [Plotter.yproj, Plotter.make, round_eq])

end DonutJs
